import Mathlib

/-!
Verification of the SCL mask engine of `satio-pc`: a shallow embedding of
`src/satio_pc/preprocessing/clouds.py`.

Modelling conventions:
* A 4-d labelled array (an `xarray.DataArray` over dims `(time, band, y, x)`) is a
  structure holding its coordinate lists and a nested list of cells (`XArr`, `Stack4`).
* Machine floats (`float32`/`float64`) are modelled by `Flt`: exact rationals plus the
  two non-finite values the pipeline can produce (`nan` from `0/0`, `inf` from `n/0`
  with `n > 0`).  Counts in this pipeline are small integers, exactly representable.
* Fallible Python code is modelled with `Except PyErr`; a raised exception is an
  `Except.error`.  The observable error classes are `keyError` (label selection),
  `typeError` (comparing `None` with an `int`), and `valueError` (constructor
  validation in `xarray`).
* `scipy`/`dask_image` binary morphology with default `border_value=0` is modelled by
  `erode2d`/`dilate2d`: out-of-bounds pixels read as `False`, and dilation uses the
  reflected structuring element, as `scipy.ndimage.binary_dilation` does.
-/

/-- Python exception classes observable in this module. -/
inductive PyErr where
  | keyError
  | typeError
  | valueError
  deriving DecidableEq, Repr

/-- Model of a machine float produced by this pipeline: an exact rational, or the
IEEE non-finite values that the unguarded divisions can produce (`0/0 = nan`,
`n/0 = inf` for `n > 0`).  Rounding of ratios such as `2/3` is idealised as exact. -/
inductive Flt where
  | nan
  | inf
  | val (q : ℚ)
  deriving DecidableEq, Repr

/-- Elementwise division of two nonnegative counts as numpy performs it on float
arrays: `0/0` yields `nan` (with a warning, no exception), `n/0` with `n > 0`
yields `+inf`, otherwise the exact quotient. -/
def divF (n d : ℕ) : Flt :=
  if d = 0 then (if n = 0 then Flt.nan else Flt.inf) else Flt.val ((n : ℚ) / (d : ℚ))

/-- numpy comparison `a > t` on floats: `nan > t` is `False`, `+inf > t` is `True`. -/
def fgt (a : Flt) (t : ℚ) : Bool :=
  match a with
  | Flt.nan => false
  | Flt.inf => true
  | Flt.val q => decide (t < q)

/-- A 4-d labelled array over dims `(time, band, y, x)` with cell type `α`:
the model of an `xarray.DataArray` as used by this module. -/
structure XArr (α : Type) where
  times : List ℤ
  band : List String
  y : List ℤ
  x : List ℤ
  data : List (List (List (List α)))
  deriving DecidableEq, Repr

/-- The input classification stack: a 4-d `(time, band, y, x)` array of SCL codes. -/
abbrev Stack4 := XArr ℕ

/-- `dataclass SCLMask`: container for the processed mask and aux arrays. -/
structure SCLMask where
  mask : XArr Bool
  aux : XArr Flt
  deriving DecidableEq, Repr

/-- `SCL_LEGEND` dictionary from the source. -/
def SCL_LEGEND : List (String × ℕ) :=
  [("no_data", 0), ("saturated_or_defective", 1), ("dark_area_pixels", 2),
   ("cloud_shadows", 3), ("vegetation", 4), ("not_vegetated", 5), ("water", 6),
   ("unclassified", 7), ("cloud_medium_probability", 8),
   ("cloud_high_probability", 9), ("thin_cirrus", 10), ("snow", 11)]

/-- `SCL_LEGEND[k]` lookup (all keys used by the source are present). -/
def legend (k : String) : ℕ :=
  (((SCL_LEGEND.find? (fun p => p.1 == k)).map (fun p => p.2)).getD 0)

/-- `SCL_MASK_VALUES = [1, 3, 8, 9, 10, 11]` from the source. -/
def SCL_MASK_VALUES : List ℕ := [1, 3, 8, 9, 10, 11]

/-- A 2-d plane of cells, row-major over `(y, x)`. -/
abbrev Grid (α : Type) := List (List α)

/-- Read a grid cell, with a default outside the stored extent. -/
def gdx (g : Grid α) (i j : ℕ) (d : α) : α := (g.getD i []).getD j d

/-- Bool-grid read: out-of-bounds reads as `False` (numpy `border_value=0`). -/
def bdx (g : Grid Bool) (i j : ℕ) : Bool := gdx g i j false

/-- Count-grid read (default 0). -/
def ndx (g : Grid ℕ) (i j : ℕ) : ℕ := gdx g i j 0

/-- Float-grid read (default `nan`; in-range in every use below). -/
def fdx (g : Grid Flt) (i j : ℕ) : Flt := gdx g i j Flt.nan

/-- Signed bool-grid read used by morphology: negative indices (pixels outside the
image) read as `False`, matching `border_value=0` of `scipy.ndimage`. -/
def bdxI (g : Grid Bool) (i j : ℤ) : Bool :=
  if 0 ≤ i ∧ 0 ≤ j then bdx g i.toNat j.toNat else false

/-- Elementwise map over a grid (numpy elementwise op on one array). -/
def mapGrid (f : α → β) (g : Grid α) : Grid β := g.map (fun row => row.map f)

/-- Elementwise `and` of two bool grids (`a & b` on equal-shape arrays). -/
def andGrid (a b : Grid Bool) : Grid Bool :=
  (a.zip b).map (fun p => (p.1.zip p.2).map (fun q => q.1 && q.2))

/-- Elementwise `and` of two time stacks of bool grids. -/
def andStack (a b : List (Grid Bool)) : List (Grid Bool) :=
  (a.zip b).map (fun p => andGrid p.1 p.2)

/-- `skimage.morphology.footprints.disk(r)` as the list of its `True` offsets:
all `(dy, dx)` with `dy² + dx² ≤ r²` (the footprint is the `(2r+1)×(2r+1)` grid of
this predicate centred at the origin). -/
def disk (r : ℕ) : List (ℤ × ℤ) :=
  (((List.range (2 * r + 1)).map (fun (i : ℕ) =>
      (List.range (2 * r + 1)).map (fun (j : ℕ) =>
        (((i : ℤ) - (r : ℤ)), ((j : ℤ) - (r : ℤ)))))).flatten).filter
    (fun p => decide (p.1 * p.1 + p.2 * p.2 ≤ (r : ℤ) * (r : ℤ)))

/-- `scipy.ndimage.binary_erosion` (via `dask_image.ndmorph`) of one 2-d plane with
footprint `fp`, `border_value=0`: a pixel survives iff every footprint offset lands
on a `True` pixel (out-of-bounds counts as `False`). -/
def erode2d (fp : List (ℤ × ℤ)) (g : Grid Bool) : Grid Bool :=
  (List.range g.length).map (fun (i : ℕ) =>
    (List.range ((g.getD i []).length)).map (fun (j : ℕ) =>
      fp.all (fun p => bdxI g ((i : ℤ) + p.1) ((j : ℤ) + p.2))))

/-- `scipy.ndimage.binary_dilation` of one 2-d plane with footprint `fp`,
`border_value=0`: scipy probes with the reflected structuring element, so a pixel
turns `True` iff some offset `(dy, dx)` of `fp` has `g[i - dy][j - dx]` `True`. -/
def dilate2d (fp : List (ℤ × ℤ)) (g : Grid Bool) : Grid Bool :=
  (List.range g.length).map (fun (i : ℕ) =>
    (List.range ((g.getD i []).length)).map (fun (j : ℕ) =>
      fp.any (fun p => bdxI g ((i : ℤ) - p.1) ((j : ℤ) - p.2))))

/-- `array.sum(axis=0)` of a time stack of bool grids, over the `ny × nx` spatial
extent: per-pixel count of the timesteps whose grid holds `True` there. -/
def sumAxis0 (s : List (Grid Bool)) (ny nx : ℕ) : Grid ℕ :=
  (List.range ny).map (fun i =>
    (List.range nx).map (fun j => s.countP (fun g => bdx g i j)))

/-- Elementwise `num / den` of two equally-shaped count grids as numpy float
division (`divF`): the ratio bands of the pipeline. -/
def divGrid (num den : Grid ℕ) : Grid Flt :=
  (List.range num.length).map (fun i =>
    (List.range ((num.getD i []).length)).map (fun j => divF (ndx num i j) (ndx den i j)))

/-- `bands` accessor name for `Stack4` (the input's band labels). -/
def XArr.bands (s : XArr α) : List String := s.band

/-- The 3-d `(time, y, x)` code view produced by `scl_data.sel(band='SCL')`:
for each timestep, the plane of the band labelled `'SCL'`. -/
def sclCodes (s : Stack4) : List (Grid ℕ) :=
  s.data.map (fun slice => slice.getD (s.bands.findIdx (fun b => b == "SCL")) [])

/-- `scl_data.sel(band='SCL')` (line 120): selects the `'SCL'` band, raising
`KeyError` when no band has that label. -/
def selSCL (s : Stack4) : Except PyErr (List (Grid ℕ)) :=
  if "SCL" ∈ s.bands then Except.ok (sclCodes s) else Except.error PyErr.keyError

/-- All intermediate arrays computed by `preprocess_scl` (lines 122-156), named as
the source names them. -/
structure SclCore where
  codes : List (Grid ℕ)
  ny : ℕ
  nx : ℕ
  maskRaw : List (Grid Bool)
  ts_obs : List (Grid Bool)
  obs : Grid ℕ
  invalid_before : Grid Flt
  cover_snow : Grid Flt
  cover_water : Grid Flt
  cover_veg : Grid Flt
  cover_notveg : Grid Flt
  maskMorph : List (Grid Bool)
  invalid_after : Grid Flt
  maskValid : List (Grid Bool)
  deriving DecidableEq, Repr

/-- Lines 154-156: `mask = mask | da.broadcast_to(invalid_after > max_invalid_ratio,
mask.shape)` — into the already valid-polarity mask, hence forcing `True` where the
threshold is exceeded. numpy `nan > t` is `False`. -/
def applyOverride (thr : ℚ) (ia : Grid Flt) (m : List (Grid Bool)) : List (Grid Bool) :=
  m.map (fun g =>
    (List.range g.length).map (fun i =>
      (List.range ((g.getD i []).length)).map (fun j =>
        bdx g i j || fgt (fdx ia i j) thr)))

/-- Lines 122-156 of `preprocess_scl` on the selected 3-d code view, with both
morphology gates already passed (radii `re`, `rd`).  Line 122 rebinds `mask_values`
to `SCL_MASK_VALUES`, so no caller-supplied set enters here. -/
def sclCorePure (codes : List (Grid ℕ)) (re rd : ℕ) (max_invalid : Option ℚ) : SclCore :=
  let mask_values := SCL_MASK_VALUES
  let ny := (codes.headD []).length
  let nx := ((codes.headD []).headD []).length
  let mask := codes.map (mapGrid (fun c => mask_values.contains c))
  let snow := codes.map (mapGrid (fun c => c == legend "snow"))
  let water := codes.map (mapGrid (fun c => c == legend "water"))
  let veg := codes.map (mapGrid (fun c => c == legend "vegetation"))
  let notveg := codes.map (mapGrid (fun c => c == legend "not_vegetated"))
  let ts_obs := codes.map (mapGrid (fun c => c != 0))
  let obs := sumAxis0 ts_obs ny nx
  let invalid_before := divGrid (sumAxis0 (andStack mask ts_obs) ny nx) obs
  let cover_snow := divGrid (sumAxis0 (andStack snow ts_obs) ny nx) obs
  let cover_water := divGrid (sumAxis0 (andStack water ts_obs) ny nx) obs
  let cover_veg := divGrid (sumAxis0 (andStack veg ts_obs) ny nx) obs
  let cover_notveg := divGrid (sumAxis0 (andStack notveg ts_obs) ny nx) obs
  let mask1 := mask.map (erode2d (disk re))
  let mask2 := mask1.map (dilate2d (disk rd))
  let invalid_after := divGrid (sumAxis0 (andStack mask2 ts_obs) ny nx) obs
  let maskInv := mask2.map (mapGrid (fun b => !b))
  let maskValid :=
    match max_invalid with
    | none => maskInv
    | some thr => applyOverride thr invalid_after maskInv
  ⟨codes, ny, nx, mask, ts_obs, obs, invalid_before,
   cover_snow, cover_water, cover_veg, cover_notveg, mask2, invalid_after, maskValid⟩

/-- Lines 120-156 of `preprocess_scl` with the source's control flow.  The gates
`if (erode_r is not None) | (erode_r > 0):` (lines 140, 144) use the
non-short-circuiting `|`; with `erode_r = None` the left operand is `False` and the
right operand `None > 0` raises `TypeError`, while with any `int` radius the left
operand is already `True`, so the stage is applied (even for radius 0). -/
def sclCore (scl_data : Stack4) (mask_values : Option (List ℕ))
    (erode_r dilate_r : Option ℕ) (max_invalid : Option ℚ) : Except PyErr SclCore :=
  match selSCL scl_data with
  | Except.error e => Except.error e
  | Except.ok codes =>
    match erode_r with
    | none => Except.error PyErr.typeError
    | some re =>
      match dilate_r with
      | none => Except.error PyErr.typeError
      | some rd =>
        let _ := mask_values
        Except.ok (sclCorePure codes re rd max_invalid)

/-- Lines 158-161: `mask = scl_data.copy(data=mask)` (same time/y/x coordinates as
the input), `assign_coords(band='SCL')`, `expand_dims('band', axis=1)`: the 3-d
valid-polarity mask re-expanded to `(time, band=['SCL'], y, x)`. -/
def maskOut (s : Stack4) (c : SclCore) : XArr Bool :=
  ⟨s.times, ["SCL"], s.y, s.x, c.maskValid.map (fun g => [g])⟩

/-- The fixed aux band names (lines 163-166). -/
def auxNames : List String :=
  ["l2a_obs", "scl_invalid_before", "scl_invalid_after", "scl_snow_cover",
   "scl_water_cover", "scl_veg_cover", "scl_notveg_cover"]

/-- Lines 168-174: `da.concatenate([obs, invalid_before, ..., cover_notveg],
axis=0).astype(np.float32)`.  Each operand is a 2-d `(ny, nx)` plane, so
concatenation along the existing axis 0 yields a 2-d `(7·ny, nx)` array —
not a 4-d `(1, 7, ny, nx)` one. -/
def auxConcat (c : SclCore) : Grid Flt :=
  (mapGrid (fun (n : ℕ) => Flt.val (n : ℚ)) c.obs) ++ c.invalid_before ++ c.invalid_after ++
    c.cover_snow ++ c.cover_water ++ c.cover_veg ++ c.cover_notveg

/-- The `dims` tuple passed to the aux constructor (line 178). -/
def auxDims : List String := ["time", "band", "y", "x"]

/-- The number of axes of a `Grid` value: a `List (List α)` is 2-dimensional. -/
def ndim2 (_g : Grid α) : ℕ := 2

/-- Lines 177-183: `xr.DataArray(aux, dims=('time','band','y','x'), coords=...)`.
xarray validates `len(dims)` against `data.ndim` and raises `ValueError` on
mismatch; `aux` is 2-dimensional (`auxConcat`), so the constructor always raises
and no aux array is ever produced. -/
def xrDataArray4 (s : Stack4) (auxData : Grid Flt) : Except PyErr (XArr Flt) :=
  if ndim2 auxData = auxDims.length then
    Except.ok ⟨[s.times.headD 0], auxNames, s.y, s.x, []⟩  -- unreachable: 2 ≠ 4
  else Except.error PyErr.valueError

/-- `preprocess_scl(scl_data, mask_values, erode_r, dilate_r, max_invalid_ratio)`
(the source's `max_invalid_ratio` parameter is named `max_invalid` here).  Returns
the `SCLMask(mask, scl_aux)` container, or the exception the source raises. -/
def preprocess_scl (scl_data : Stack4) (mask_values : Option (List ℕ))
    (erode_r dilate_r : Option ℕ) (max_invalid : Option ℚ) : Except PyErr SCLMask :=
  match sclCore scl_data mask_values erode_r dilate_r max_invalid with
  | Except.error e => Except.error e
  | Except.ok c =>
    match xrDataArray4 scl_data (auxConcat c) with
    | Except.error e => Except.error e
    | Except.ok scl_aux => Except.ok ⟨maskOut scl_data c, scl_aux⟩

/-- Read one cell of the 4-d output mask. -/
def bdx4 (a : XArr Bool) (t b i j : ℕ) : Bool :=
  (((a.data.getD t []).getD b []).getD i []).getD j false

/-- A geographic bounding rectangle `(xmin, ymin, xmax, ymax)`, the shape of the
`bounds` tuple computed by the accessor in `extension.py`. -/
abbrev Bounds := ℤ × ℤ × ℤ × ℤ

/-- Keep the entries of `rows` whose paired coordinate satisfies `p`: the
row/column selection a coordinate-based spatial crop performs. -/
def filterByCoord (coords : List ℤ) (p : ℤ → Bool) (rows : List β) : List β :=
  ((coords.zip rows).filter (fun q => p q.1)).map (fun q => q.2)

/-- Model of the spatial-crop primitive `DataArray.rio.clip(*bounds)` supplied by
the array library: it keeps exactly the y/x coordinate values lying inside the
bounding rectangle, together with the corresponding data rows/columns, and leaves
the time/band axes untouched.  It builds a new array; the input is not mutated. -/
def rioClip (a : XArr α) (b : Bounds) : XArr α :=
  ⟨a.times, a.band,
   a.y.filter (fun v => decide (b.2.1 ≤ v) && decide (v ≤ b.2.2.2)),
   a.x.filter (fun v => decide (b.1 ≤ v) && decide (v ≤ b.2.2.1)),
   a.data.map (fun slice => slice.map (fun plane =>
     (filterByCoord a.y (fun v => decide (b.2.1 ≤ v) && decide (v ≤ b.2.2.2)) plane).map
       (filterByCoord a.x (fun v => decide (b.1 ≤ v) && decide (v ≤ b.2.2.1)))))⟩

/-- `SCLMask.clip` (lines 55-58): crops both members with the same `bounds` and
returns a new container built from the two cropped arrays. -/
def SCLMask.clip (m : SCLMask) (bounds : Bounds) : SCLMask :=
  ⟨rioClip m.mask bounds, rioClip m.aux bounds⟩

/-- Well-formedness of an input stack: a band literally named `'SCL'`, at least one
timestep, a nonempty spatial extent, and rectangular data matching the coordinate
lists (`time × band × y × x`). -/
def wfStack (s : Stack4) : Bool :=
  s.bands.contains "SCL" && !s.times.isEmpty && !s.y.isEmpty && !s.x.isEmpty &&
  s.data.length == s.times.length &&
  s.data.all (fun slice => slice.length == s.bands.length &&
    slice.all (fun plane => plane.length == s.y.length &&
      plane.all (fun row => row.length == s.x.length)))

/-- Concrete stack of §8.6 of the spec: 3 timesteps, one `'SCL'` band, 2×2 pixels;
pixel `(0,0)` has codes `[9, 9, 4]`, every other pixel `[4, 4, 4]`. -/
def testStack : Stack4 :=
  ⟨[0, 1, 2], ["SCL"], [1, 0], [0, 1],
   [[[[9, 4], [4, 4]]], [[[9, 4], [4, 4]]], [[[4, 4], [4, 4]]]]⟩

/-- Variant with a `no_data` (code 0) pixel-time at `t=1`, pixel `(1,1)`. -/
def testStack0 : Stack4 :=
  ⟨[0, 1, 2], ["SCL"], [1, 0], [0, 1],
   [[[[9, 4], [4, 4]]], [[[9, 4], [4, 0]]], [[[4, 4], [4, 4]]]]⟩

/-! ## Indexing helper lemmas -/

theorem getD_map_d (f : α → β) (da : α) (db : β) (hf : f da = db) :
    ∀ (l : List α) (i : ℕ), (l.map f).getD i db = f (l.getD i da)
  | [], _ => by simp [List.getD, hf]
  | _ :: _, 0 => rfl
  | _ :: t, i + 1 => getD_map_d f da db hf t i

theorem getD_map_of_lt (f : α → β) {l : List α} {i : ℕ} (h : i < l.length) (d : β) (d' : α) :
    (l.map f).getD i d = f (l.getD i d') := by
  rw [List.getD_eq_getElem?_getD, List.getD_eq_getElem?_getD, List.getElem?_map,
    List.getElem?_eq_getElem h]
  rfl

theorem getD_range_map (f : ℕ → α) {n i : ℕ} (h : i < n) (d : α) :
    ((List.range n).map f).getD i d = f i := by
  rw [List.getD_eq_getElem?_getD, List.getElem?_map, List.getElem?_range h]
  rfl

theorem map_range_getD (l : List α) (d : α) :
    (List.range l.length).map (fun i => l.getD i d) = l := by
  induction l with
  | nil => rfl
  | cons a t ih =>
      simp only [List.length_cons, List.range_succ_eq_map, List.map_cons, List.map_map]
      exact congrArg (a :: ·) ih

theorem getD_mem_of_lt (l : List α) {i : ℕ} (h : i < l.length) (d : α) : l.getD i d ∈ l := by
  rw [List.getD_eq_getElem?_getD, List.getElem?_eq_getElem h]
  exact List.getElem_mem h

theorem headD_mem (l : List α) (h : l ≠ []) (d : α) : l.headD d ∈ l := by
  cases l with
  | nil => exact absurd rfl h
  | cons a t => exact List.mem_cons_self a t

/-! ## Grid value lemmas -/

theorem bdxI_natCast (g : Grid Bool) (i j : ℕ) : bdxI g (i : ℤ) (j : ℤ) = bdx g i j := by
  unfold bdxI
  rw [if_pos ⟨Int.natCast_nonneg i, Int.natCast_nonneg j⟩, Int.toNat_natCast, Int.toNat_natCast]

theorem gdx_mapGrid (f : α → β) (g : Grid α) {i j : ℕ} (hj : j < (g.getD i []).length)
    (d : β) (d' : α) : gdx (mapGrid f g) i j d = f (gdx g i j d') := by
  unfold gdx mapGrid
  rw [getD_map_d (fun row => row.map f) [] [] rfl, getD_map_of_lt f hj]

theorem getD_zipAnd :
    ∀ (r s : List Bool) (j : ℕ),
      ((r.zip s).map (fun q => q.1 && q.2)).getD j false = (r.getD j false && s.getD j false)
  | [], _, j => by simp [List.getD]
  | _ :: _, [], j => by simp [List.getD]
  | _ :: _, _ :: _, 0 => rfl
  | _ :: r, _ :: s, j + 1 => getD_zipAnd r s j

theorem bdx_andGrid :
    ∀ (a b : Grid Bool) (i j : ℕ), bdx (andGrid a b) i j = (bdx a i j && bdx b i j)
  | [], _, i, _ => by simp [andGrid, bdx, gdx, List.getD]
  | _ :: _, [], i, _ => by simp [andGrid, bdx, gdx, List.getD]
  | r :: _, r' :: _, 0, j => getD_zipAnd r r' j
  | _ :: a, _ :: b, i + 1, j => bdx_andGrid a b i j

theorem ndx_sumAxis0 (s : List (Grid Bool)) {ny nx i j : ℕ} (hi : i < ny) (hj : j < nx) :
    ndx (sumAxis0 s ny nx) i j = s.countP (fun g => bdx g i j) := by
  unfold ndx gdx sumAxis0
  rw [getD_range_map _ hi, getD_range_map _ hj]

theorem fdx_divGrid (num den : Grid ℕ) {i j : ℕ} (hi : i < num.length)
    (hj : j < (num.getD i []).length) :
    fdx (divGrid num den) i j = divF (ndx num i j) (ndx den i j) := by
  unfold fdx gdx divGrid
  rw [getD_range_map _ hi, getD_range_map _ hj]

theorem andStack_map_map (l : List (Grid ℕ)) (F G : Grid ℕ → Grid Bool) :
    andStack (l.map F) (l.map G) = l.map (fun c => andGrid (F c) (G c)) := by
  unfold andStack
  rw [List.zip_map', List.map_map]
  rfl

/-! ## Shape bookkeeping -/

/-- A grid is rectangular with `ny` rows of `nx` cells each. -/
def Shape2 (ny nx : ℕ) (g : Grid α) : Prop := g.length = ny ∧ ∀ r ∈ g, r.length = nx

/-- Every grid of a time stack is `ny × nx`. -/
def ShapeS (ny nx : ℕ) (s : List (Grid α)) : Prop := ∀ g ∈ s, Shape2 ny nx g

theorem shape2_rowLen {g : Grid α} {ny nx : ℕ} (h : Shape2 ny nx g) {i : ℕ} (hi : i < ny) :
    (g.getD i []).length = nx :=
  h.2 _ (getD_mem_of_lt g (h.1 ▸ hi) [])

theorem shape2_mapGrid (f : α → β) {g : Grid α} {ny nx : ℕ} (h : Shape2 ny nx g) :
    Shape2 ny nx (mapGrid f g) := by
  refine ⟨by simpa [mapGrid] using h.1, fun r hr => ?_⟩
  obtain ⟨r0, hr0, rfl⟩ := List.mem_map.mp hr
  simpa using h.2 r0 hr0

theorem shape2_erode2d (fp : List (ℤ × ℤ)) {g : Grid Bool} {ny nx : ℕ} (h : Shape2 ny nx g) :
    Shape2 ny nx (erode2d fp g) := by
  refine ⟨by simp [erode2d, h.1], fun r hr => ?_⟩
  obtain ⟨i, hi, rfl⟩ := List.mem_map.mp hr
  simp only [List.length_map, List.length_range]
  exact shape2_rowLen h (h.1 ▸ List.mem_range.mp hi)

theorem shape2_dilate2d (fp : List (ℤ × ℤ)) {g : Grid Bool} {ny nx : ℕ} (h : Shape2 ny nx g) :
    Shape2 ny nx (dilate2d fp g) := by
  refine ⟨by simp [dilate2d, h.1], fun r hr => ?_⟩
  obtain ⟨i, hi, rfl⟩ := List.mem_map.mp hr
  simp only [List.length_map, List.length_range]
  exact shape2_rowLen h (h.1 ▸ List.mem_range.mp hi)

theorem shape2_andGrid {a b : Grid Bool} {ny nx : ℕ} (ha : Shape2 ny nx a)
    (hb : Shape2 ny nx b) : Shape2 ny nx (andGrid a b) := by
  constructor
  · simp [andGrid, List.length_zip, ha.1, hb.1]
  · intro r hr
    unfold andGrid at hr
    obtain ⟨p, hp, rfl⟩ := List.mem_map.mp hr
    have hmem := List.of_mem_zip hp
    simp only [List.length_map, List.length_zip, ha.2 p.1 hmem.1, hb.2 p.2 hmem.2,
      Nat.min_self]

theorem shape2_sumAxis0 (s : List (Grid Bool)) (ny nx : ℕ) :
    Shape2 ny nx (sumAxis0 s ny nx) := by
  refine ⟨by simp [sumAxis0], fun r hr => ?_⟩
  obtain ⟨i, _, rfl⟩ := List.mem_map.mp hr
  simp

theorem shape2_divGrid {num : Grid ℕ} (den : Grid ℕ) {ny nx : ℕ} (h : Shape2 ny nx num) :
    Shape2 ny nx (divGrid num den) := by
  refine ⟨by simp [divGrid, h.1], fun r hr => ?_⟩
  obtain ⟨i, hi, rfl⟩ := List.mem_map.mp hr
  simp only [List.length_map, List.length_range]
  exact shape2_rowLen h (h.1 ▸ List.mem_range.mp hi)

theorem shapeS_mapGrid (f : α → β) {s : List (Grid α)} {ny nx : ℕ} (h : ShapeS ny nx s) :
    ShapeS ny nx (s.map (mapGrid f)) := by
  intro g hg
  obtain ⟨g0, hg0, rfl⟩ := List.mem_map.mp hg
  exact shape2_mapGrid f (h g0 hg0)

theorem shapeS_erode (fp : List (ℤ × ℤ)) {s : List (Grid Bool)} {ny nx : ℕ}
    (h : ShapeS ny nx s) : ShapeS ny nx (s.map (erode2d fp)) := by
  intro g hg
  obtain ⟨g0, hg0, rfl⟩ := List.mem_map.mp hg
  exact shape2_erode2d fp (h g0 hg0)

theorem shapeS_dilate (fp : List (ℤ × ℤ)) {s : List (Grid Bool)} {ny nx : ℕ}
    (h : ShapeS ny nx s) : ShapeS ny nx (s.map (dilate2d fp)) := by
  intro g hg
  obtain ⟨g0, hg0, rfl⟩ := List.mem_map.mp hg
  exact shape2_dilate2d fp (h g0 hg0)

/-! ## Well-formedness extraction -/

/-- The number of rows of the first timestep's plane: the `ny` the pipeline uses. -/
def nyOf (codes : List (Grid ℕ)) : ℕ := (codes.headD []).length

/-- The number of cells of the first row of the first plane: the pipeline's `nx`. -/
def nxOf (codes : List (Grid ℕ)) : ℕ := ((codes.headD []).headD []).length

theorem wf_parts (s : Stack4) (h : wfStack s = true) :
    "SCL" ∈ s.bands ∧ s.times ≠ [] ∧ s.y ≠ [] ∧ s.x ≠ [] ∧
      s.data.length = s.times.length ∧
      ∀ slice ∈ s.data, slice.length = s.bands.length ∧
        ∀ plane ∈ slice, plane.length = s.y.length ∧
          ∀ row ∈ plane, row.length = s.x.length := by
  unfold wfStack at h
  simp only [Bool.and_eq_true, List.all_eq_true, beq_iff_eq, Bool.not_eq_true',
    List.isEmpty_eq_false] at h
  obtain ⟨⟨⟨⟨⟨h1, h2⟩, h3⟩, h4⟩, h5⟩, h6⟩ := h
  refine ⟨List.elem_iff.mp h1, h2, h3, h4, h5, fun slice hs => ?_⟩
  exact h6 slice hs

theorem wf_codes (s : Stack4) (h : wfStack s = true) :
    (sclCodes s).length = s.times.length ∧ sclCodes s ≠ [] ∧
      ShapeS s.y.length s.x.length (sclCodes s) := by
  obtain ⟨hb, ht, _, _, hlen, hall⟩ := wf_parts s h
  have hclen : (sclCodes s).length = s.times.length := by
    simpa [sclCodes] using hlen
  refine ⟨hclen, fun he => ht (List.length_eq_zero.mp (by rw [← hclen, he]; rfl)), ?_⟩
  intro plane hplane
  obtain ⟨slice, hslice, rfl⟩ := List.mem_map.mp hplane
  obtain ⟨hsl, hpl⟩ := hall slice hslice
  have hk : s.bands.findIdx (fun b => b == "SCL") < slice.length := by
    rw [hsl]
    exact List.findIdx_lt_length_of_exists ⟨"SCL", hb, by simp⟩
  exact hpl _ (getD_mem_of_lt slice hk [])

theorem wf_nyOf (s : Stack4) (h : wfStack s = true) : nyOf (sclCodes s) = s.y.length := by
  obtain ⟨_, hne, hshape⟩ := wf_codes s h
  exact (hshape _ (headD_mem _ hne [])).1

theorem wf_nxOf (s : Stack4) (h : wfStack s = true) : nxOf (sclCodes s) = s.x.length := by
  obtain ⟨_, hne, hshape⟩ := wf_codes s h
  obtain ⟨_, _, hy, _, _, _⟩ := wf_parts s h
  obtain ⟨hplen, hrows⟩ := hshape _ (headD_mem _ hne [])
  have hpne : (sclCodes s).headD [] ≠ [] := by
    intro he
    exact hy (List.length_eq_zero.mp (by rw [← hplen, he]; rfl))
  exact hrows _ (headD_mem _ hpne [])

theorem wf_shapeS (s : Stack4) (h : wfStack s = true) :
    ShapeS (nyOf (sclCodes s)) (nxOf (sclCodes s)) (sclCodes s) := by
  rw [wf_nyOf s h, wf_nxOf s h]
  exact (wf_codes s h).2.2

/-! ## Radius-0 morphology is the identity -/

theorem erode2d_disk0 (g : Grid Bool) : erode2d (disk 0) g = g := by
  have hd : disk 0 = [(0, 0)] := by decide
  unfold erode2d
  rw [hd]
  have hrow : ∀ i : ℕ,
      ((List.range ((g.getD i []).length)).map (fun (j : ℕ) =>
        ([((0 : ℤ), (0 : ℤ))].all (fun p => bdxI g ((i : ℤ) + p.1) ((j : ℤ) + p.2))))) =
        g.getD i [] := by
    intro i
    have hcell : ∀ j : ℕ,
        ([((0 : ℤ), (0 : ℤ))].all (fun p => bdxI g ((i : ℤ) + p.1) ((j : ℤ) + p.2))) =
          (g.getD i []).getD j false := by
      intro j
      simp only [List.all_cons, List.all_nil, Bool.and_true, add_zero, bdxI_natCast]
      rfl
    rw [List.map_congr_left (fun j _ => hcell j)]
    exact map_range_getD (g.getD i []) false
  rw [List.map_congr_left (fun i _ => hrow i)]
  exact map_range_getD g []

theorem dilate2d_disk0 (g : Grid Bool) : dilate2d (disk 0) g = g := by
  have hd : disk 0 = [(0, 0)] := by decide
  unfold dilate2d
  rw [hd]
  have hrow : ∀ i : ℕ,
      ((List.range ((g.getD i []).length)).map (fun (j : ℕ) =>
        ([((0 : ℤ), (0 : ℤ))].any (fun p => bdxI g ((i : ℤ) - p.1) ((j : ℤ) - p.2))))) =
        g.getD i [] := by
    intro i
    have hcell : ∀ j : ℕ,
        ([((0 : ℤ), (0 : ℤ))].any (fun p => bdxI g ((i : ℤ) - p.1) ((j : ℤ) - p.2))) =
          (g.getD i []).getD j false := by
      intro j
      simp only [List.any_cons, List.any_nil, Bool.or_false, sub_zero, bdxI_natCast]
      rfl
    rw [List.map_congr_left (fun j _ => hcell j)]
    exact map_range_getD (g.getD i []) false
  rw [List.map_congr_left (fun i _ => hrow i)]
  exact map_range_getD g []

theorem map_erode2d_disk0 (s : List (Grid Bool)) : s.map (erode2d (disk 0)) = s := by
  rw [List.map_congr_left (fun g _ => erode2d_disk0 g)]
  exact List.map_id s

theorem map_dilate2d_disk0 (s : List (Grid Bool)) : s.map (dilate2d (disk 0)) = s := by
  rw [List.map_congr_left (fun g _ => dilate2d_disk0 g)]
  exact List.map_id s

/-! ## Reduction of the guarded pipeline -/

theorem sclCore_ok (s : Stack4) (mv : Option (List ℕ)) (re rd : ℕ) (mir : Option ℚ)
    (h : "SCL" ∈ s.bands) :
    sclCore s mv (some re) (some rd) mir = Except.ok (sclCorePure (sclCodes s) re rd mir) := by
  unfold sclCore selSCL
  rw [if_pos h]

/-! ## Per-pixel values of the pipeline arrays -/

theorem bdx_mapGrid (p : ℕ → Bool) (c : Grid ℕ) {i j : ℕ} (hj : j < (c.getD i []).length) :
    bdx (mapGrid p c) i j = p (ndx c i j) :=
  gdx_mapGrid p c hj false 0

theorem countP_stack_map (codes : List (Grid ℕ)) (p : ℕ → Bool) {ny nx i j : ℕ}
    (hsh : ShapeS ny nx codes) (hi : i < ny) (hj : j < nx) :
    (codes.map (mapGrid p)).countP (fun g => bdx g i j) =
      codes.countP (fun c => p (ndx c i j)) := by
  rw [List.countP_map]
  refine List.countP_congr (fun c hc => ?_)
  have hrow : j < (c.getD i []).length := by
    rw [shape2_rowLen (hsh c hc) hi]; exact hj
  show (bdx (mapGrid p c) i j = true) ↔ _
  rw [bdx_mapGrid p c hrow]

theorem countP_andStack_two (codes : List (Grid ℕ)) (p q : ℕ → Bool) {ny nx i j : ℕ}
    (hsh : ShapeS ny nx codes) (hi : i < ny) (hj : j < nx) :
    (andStack (codes.map (mapGrid p)) (codes.map (mapGrid q))).countP (fun g => bdx g i j) =
      codes.countP (fun c => p (ndx c i j) && q (ndx c i j)) := by
  rw [andStack_map_map, List.countP_map]
  refine List.countP_congr (fun c hc => ?_)
  have hrow : j < (c.getD i []).length := by
    rw [shape2_rowLen (hsh c hc) hi]; exact hj
  show (bdx (andGrid (mapGrid p c) (mapGrid q c)) i j = true) ↔ _
  rw [bdx_andGrid, bdx_mapGrid p c hrow, bdx_mapGrid q c hrow]

theorem fdx_ratio_expr (codes : List (Grid ℕ)) (p : ℕ → Bool) {i j : ℕ}
    (hsh : ShapeS (nyOf codes) (nxOf codes) codes)
    (hi : i < nyOf codes) (hj : j < nxOf codes) :
    fdx (divGrid
          (sumAxis0 (andStack (codes.map (mapGrid p)) (codes.map (mapGrid (fun c => c != 0))))
            (nyOf codes) (nxOf codes))
          (sumAxis0 (codes.map (mapGrid (fun c => c != 0))) (nyOf codes) (nxOf codes))) i j =
      divF (codes.countP (fun c => p (ndx c i j) && (ndx c i j != 0)))
           (codes.countP (fun c => ndx c i j != 0)) := by
  have h1 : i < (sumAxis0 (andStack (codes.map (mapGrid p))
      (codes.map (mapGrid (fun c => c != 0)))) (nyOf codes) (nxOf codes)).length := by
    simpa [sumAxis0] using hi
  have h2 : j < ((sumAxis0 (andStack (codes.map (mapGrid p))
      (codes.map (mapGrid (fun c => c != 0)))) (nyOf codes) (nxOf codes)).getD i []).length := by
    rw [shape2_rowLen (shape2_sumAxis0 _ _ _) hi]; exact hj
  rw [fdx_divGrid _ _ h1 h2, ndx_sumAxis0 _ hi hj, ndx_sumAxis0 _ hi hj,
    countP_andStack_two codes p _ hsh hi hj, countP_stack_map codes _ hsh hi hj]

theorem bdx_applyOverride (thr : ℚ) (ia : Grid Flt) (m : List (Grid Bool)) {t i j : ℕ}
    (ht : t < m.length) (hi : i < (m.getD t []).length)
    (hj : j < ((m.getD t []).getD i []).length) :
    bdx ((applyOverride thr ia m).getD t []) i j =
      (bdx (m.getD t []) i j || fgt (fdx ia i j) thr) := by
  unfold applyOverride
  rw [getD_map_of_lt _ ht [] []]
  show gdx _ i j false = _
  unfold gdx
  rw [getD_range_map _ hi, getD_range_map _ hj]

theorem bdx4_maskOut (s : Stack4) (c : SclCore) {t : ℕ} (i j : ℕ)
    (ht : t < c.maskValid.length) :
    bdx4 (maskOut s c) t 0 i j = bdx (c.maskValid.getD t []) i j := by
  unfold bdx4 maskOut
  rw [getD_map_of_lt _ ht [] []]
  rfl

/-! ## Projections of `sclCorePure` (all definitional) -/

theorem core_codes (codes : List (Grid ℕ)) (re rd : ℕ) (mir : Option ℚ) :
    (sclCorePure codes re rd mir).codes = codes := rfl

theorem core_maskRaw (codes : List (Grid ℕ)) (re rd : ℕ) (mir : Option ℚ) :
    (sclCorePure codes re rd mir).maskRaw =
      codes.map (mapGrid (fun c => SCL_MASK_VALUES.contains c)) := rfl

theorem core_ts_obs (codes : List (Grid ℕ)) (re rd : ℕ) (mir : Option ℚ) :
    (sclCorePure codes re rd mir).ts_obs = codes.map (mapGrid (fun c => c != 0)) := rfl

theorem core_obs_def (codes : List (Grid ℕ)) (re rd : ℕ) (mir : Option ℚ) :
    (sclCorePure codes re rd mir).obs =
      sumAxis0 (codes.map (mapGrid (fun c => c != 0))) (nyOf codes) (nxOf codes) := rfl

theorem core_maskMorph (codes : List (Grid ℕ)) (re rd : ℕ) (mir : Option ℚ) :
    (sclCorePure codes re rd mir).maskMorph =
      ((codes.map (mapGrid (fun c => SCL_MASK_VALUES.contains c))).map
        (erode2d (disk re))).map (dilate2d (disk rd)) := rfl

theorem core_maskValid_none (codes : List (Grid ℕ)) (re rd : ℕ) :
    (sclCorePure codes re rd none).maskValid =
      (sclCorePure codes re rd none).maskMorph.map (mapGrid (fun b => !b)) := rfl

theorem core_maskValid_some (codes : List (Grid ℕ)) (re rd : ℕ) (thr : ℚ) :
    (sclCorePure codes re rd (some thr)).maskValid =
      applyOverride thr (sclCorePure codes re rd (some thr)).invalid_after
        ((sclCorePure codes re rd (some thr)).maskMorph.map (mapGrid (fun b => !b))) := rfl

theorem core_invalid_before_def (codes : List (Grid ℕ)) (re rd : ℕ) (mir : Option ℚ) :
    (sclCorePure codes re rd mir).invalid_before =
      divGrid
        (sumAxis0 (andStack (codes.map (mapGrid (fun c => SCL_MASK_VALUES.contains c)))
          (codes.map (mapGrid (fun c => c != 0)))) (nyOf codes) (nxOf codes))
        (sumAxis0 (codes.map (mapGrid (fun c => c != 0))) (nyOf codes) (nxOf codes)) := rfl

theorem core_cover_def (codes : List (Grid ℕ)) (re rd : ℕ) (mir : Option ℚ) :
    (sclCorePure codes re rd mir).cover_snow =
      divGrid
        (sumAxis0 (andStack (codes.map (mapGrid (fun c => c == legend "snow")))
          (codes.map (mapGrid (fun c => c != 0)))) (nyOf codes) (nxOf codes))
        (sumAxis0 (codes.map (mapGrid (fun c => c != 0))) (nyOf codes) (nxOf codes)) ∧
    (sclCorePure codes re rd mir).cover_water =
      divGrid
        (sumAxis0 (andStack (codes.map (mapGrid (fun c => c == legend "water")))
          (codes.map (mapGrid (fun c => c != 0)))) (nyOf codes) (nxOf codes))
        (sumAxis0 (codes.map (mapGrid (fun c => c != 0))) (nyOf codes) (nxOf codes)) ∧
    (sclCorePure codes re rd mir).cover_veg =
      divGrid
        (sumAxis0 (andStack (codes.map (mapGrid (fun c => c == legend "vegetation")))
          (codes.map (mapGrid (fun c => c != 0)))) (nyOf codes) (nxOf codes))
        (sumAxis0 (codes.map (mapGrid (fun c => c != 0))) (nyOf codes) (nxOf codes)) ∧
    (sclCorePure codes re rd mir).cover_notveg =
      divGrid
        (sumAxis0 (andStack (codes.map (mapGrid (fun c => c == legend "not_vegetated")))
          (codes.map (mapGrid (fun c => c != 0)))) (nyOf codes) (nxOf codes))
        (sumAxis0 (codes.map (mapGrid (fun c => c != 0))) (nyOf codes) (nxOf codes)) :=
  ⟨rfl, rfl, rfl, rfl⟩

theorem core_invalid_after_def (codes : List (Grid ℕ)) (re rd : ℕ) (mir : Option ℚ) :
    (sclCorePure codes re rd mir).invalid_after =
      divGrid
        (sumAxis0 (andStack
          (((codes.map (mapGrid (fun c => SCL_MASK_VALUES.contains c))).map
            (erode2d (disk re))).map (dilate2d (disk rd)))
          (codes.map (mapGrid (fun c => c != 0)))) (nyOf codes) (nxOf codes))
        (sumAxis0 (codes.map (mapGrid (fun c => c != 0))) (nyOf codes) (nxOf codes)) := rfl

theorem legend_vals :
    legend "snow" = 11 ∧ legend "water" = 6 ∧ legend "vegetation" = 4 ∧
      legend "not_vegetated" = 5 := by
  refine ⟨?_, ?_, ?_, ?_⟩ <;> rfl

/-! ## Derived per-pixel facts -/

theorem core_obs_val (codes : List (Grid ℕ)) (re rd : ℕ) (mir : Option ℚ) {i j : ℕ}
    (hsh : ShapeS (nyOf codes) (nxOf codes) codes)
    (hi : i < nyOf codes) (hj : j < nxOf codes) :
    ndx (sclCorePure codes re rd mir).obs i j = codes.countP (fun c => ndx c i j != 0) := by
  rw [core_obs_def, ndx_sumAxis0 _ hi hj, countP_stack_map codes _ hsh hi hj]

theorem fdx_div_sums (X Y : List (Grid Bool)) {ny nx i j : ℕ} (hi : i < ny) (hj : j < nx) :
    fdx (divGrid (sumAxis0 X ny nx) (sumAxis0 Y ny nx)) i j =
      divF (X.countP (fun g => bdx g i j)) (Y.countP (fun g => bdx g i j)) := by
  have h1 : i < (sumAxis0 X ny nx).length := by simpa [sumAxis0] using hi
  have h2 : j < ((sumAxis0 X ny nx).getD i []).length := by
    rw [shape2_rowLen (shape2_sumAxis0 _ _ _) hi]; exact hj
  rw [fdx_divGrid _ _ h1 h2, ndx_sumAxis0 _ hi hj, ndx_sumAxis0 _ hi hj]

theorem countP_unobserved_zero (codes : List (Grid ℕ)) (p : ℕ → Bool) {i j : ℕ}
    (hz : ∀ c ∈ codes, ndx c i j = 0) :
    codes.countP (fun c => p (ndx c i j) && (ndx c i j != 0)) = 0 := by
  rw [List.countP_eq_zero]
  intro c hc
  simp [hz c hc]

theorem countP_andStack_obs_zero (a : List (Grid Bool)) (codes : List (Grid ℕ))
    {ny nx i j : ℕ} (hsh : ShapeS ny nx codes) (hi : i < ny) (hj : j < nx)
    (hz : ∀ c ∈ codes, ndx c i j = 0) :
    (andStack a (codes.map (mapGrid (fun c => c != 0)))).countP (fun g => bdx g i j) = 0 := by
  rw [List.countP_eq_zero]
  intro g hg
  unfold andStack at hg
  obtain ⟨pr, hpr, rfl⟩ := List.mem_map.mp hg
  obtain ⟨c, hc, hcc⟩ := List.mem_map.mp (List.of_mem_zip hpr).2
  have hrow : j < (c.getD i []).length := by
    rw [shape2_rowLen (hsh c hc) hi]; exact hj
  simp [bdx_andGrid, ← hcc, bdx_mapGrid _ c hrow, hz c hc]

theorem shapeS_applyOverride (thr : ℚ) (ia : Grid Flt) {m : List (Grid Bool)} {ny nx : ℕ}
    (h : ShapeS ny nx m) : ShapeS ny nx (applyOverride thr ia m) := by
  intro g hg
  unfold applyOverride at hg
  obtain ⟨g0, hg0, rfl⟩ := List.mem_map.mp hg
  refine ⟨by simp [(h g0 hg0).1], fun r hr => ?_⟩
  obtain ⟨i, hi, rfl⟩ := List.mem_map.mp hr
  simp only [List.length_map, List.length_range]
  exact shape2_rowLen (h g0 hg0) ((h g0 hg0).1 ▸ List.mem_range.mp hi)

theorem core_maskMorph_shape (codes : List (Grid ℕ)) (re rd : ℕ) (mir : Option ℚ)
    {ny nx : ℕ} (hsh : ShapeS ny nx codes) :
    ShapeS ny nx (sclCorePure codes re rd mir).maskMorph := by
  rw [core_maskMorph]
  exact shapeS_dilate _ (shapeS_erode _ (shapeS_mapGrid _ hsh))

theorem core_maskValid_shape (codes : List (Grid ℕ)) (re rd : ℕ) (mir : Option ℚ)
    {ny nx : ℕ} (hsh : ShapeS ny nx codes) :
    ShapeS ny nx (sclCorePure codes re rd mir).maskValid := by
  cases mir with
  | none =>
      rw [core_maskValid_none]
      exact shapeS_mapGrid _ (core_maskMorph_shape codes re rd none hsh)
  | some thr =>
      rw [core_maskValid_some]
      exact shapeS_applyOverride _ _
        (shapeS_mapGrid _ (core_maskMorph_shape codes re rd (some thr) hsh))

theorem core_maskValid_length (codes : List (Grid ℕ)) (re rd : ℕ) (mir : Option ℚ) :
    (sclCorePure codes re rd mir).maskValid.length = codes.length := by
  cases mir with
  | none =>
      rw [core_maskValid_none, core_maskMorph]
      simp
  | some thr =>
      rw [core_maskValid_some]
      unfold applyOverride
      rw [core_maskMorph]
      simp

theorem core_after_eq_before_disk0 (codes : List (Grid ℕ)) (mir : Option ℚ) :
    (sclCorePure codes 0 0 mir).invalid_after = (sclCorePure codes 0 0 mir).invalid_before := by
  rw [core_invalid_after_def, map_erode2d_disk0, map_dilate2d_disk0]
  exact (core_invalid_before_def codes 0 0 mir).symm

/-- A concrete coregistered container for exercising `SCLMask.clip`. -/
def testMask : SCLMask :=
  ⟨⟨[0], ["SCL"], [10, 20], [30, 40], [[[[true, false], [false, true]]]]⟩,
   ⟨[0], ["l2a_obs"], [10, 20], [30, 40],
    [[[[Flt.val 1, Flt.nan], [Flt.val 0, Flt.val 1]]]]⟩⟩

/-! ## Claim theorems -/

/-- C3: the caller-supplied `mask_values` argument is ignored: two calls to
`preprocess_scl` on the same stack and configuration that differ only in
`mask_values` produce identical results (likewise for the whole intermediate
pipeline state), and the set of codes treated as invalid is always the fixed
default `{1, 3, 8, 9, 10, 11}` (line 122 rebinds the parameter). -/
theorem C3_mask_values_ignored (s : Stack4) (mv₁ mv₂ : Option (List ℕ))
    (erode_r dilate_r : Option ℕ) (mir : Option ℚ) :
    preprocess_scl s mv₁ erode_r dilate_r mir = preprocess_scl s mv₂ erode_r dilate_r mir ∧
    sclCore s mv₁ erode_r dilate_r mir = sclCore s mv₂ erode_r dilate_r mir ∧
    SCL_MASK_VALUES = [1, 3, 8, 9, 10, 11] ∧
    ∀ (codes : List (Grid ℕ)) (re rd : ℕ),
      (sclCorePure codes re rd mir).maskRaw =
        codes.map (mapGrid (fun c => ([1, 3, 8, 9, 10, 11] : List ℕ).contains c)) :=
  ⟨rfl, rfl, rfl, fun _ _ _ => rfl⟩

/-- C7: the morphology stage applies erosion with `disk(erode_r)` and then
dilation with `disk(dilate_r)` independently to each timestep's 2-d slice and
restacks in the original time order: the post-morphology stack is the elementwise
map of the per-slice transform over the binarized stack, so the slice at index
`t` is exactly the transform of input slice `t`, for every `t`. -/
theorem C7_per_timestep_morphology (codes : List (Grid ℕ)) (re rd : ℕ) (mir : Option ℚ) :
    (sclCorePure codes re rd mir).maskMorph =
      (sclCorePure codes re rd mir).maskRaw.map
        (fun g => dilate2d (disk rd) (erode2d (disk re) g)) ∧
    ∀ t : ℕ, ((sclCorePure codes re rd mir).maskMorph)[t]? =
      (((sclCorePure codes re rd mir).maskRaw)[t]?).map
        (fun g => dilate2d (disk rd) (erode2d (disk re) g)) := by
  have h : (sclCorePure codes re rd mir).maskMorph =
      (sclCorePure codes re rd mir).maskRaw.map
        (fun g => dilate2d (disk rd) (erode2d (disk re) g)) := by
    rw [core_maskMorph, core_maskRaw, List.map_map]
    rfl
  exact ⟨h, fun t => by rw [h, List.getElem?_map]⟩

/-- C2: the claim says `erode_r = None` (resp. `dilate_r = None`) skips that
morphology stage and the call raises no exception.  The code's gate
`if (erode_r is not None) | (erode_r > 0):` (line 140, and 144 for dilation)
instead evaluates `None > 0`, which raises `TypeError`: on every well-formed
stack the call with a `None` radius raises instead of skipping. -/
theorem C2_none_radius_raises (s : Stack4) (mv : Option (List ℕ)) (dr : Option ℕ)
    (mir : Option ℚ) (h : wfStack s = true) :
    preprocess_scl s mv none dr mir = Except.error PyErr.typeError ∧
    ∀ re : ℕ, preprocess_scl s mv (some re) none mir = Except.error PyErr.typeError := by
  have hmem : "SCL" ∈ s.bands := (wf_parts s h).1
  constructor
  · unfold preprocess_scl sclCore selSCL
    rw [if_pos hmem]
  · intro re
    unfold preprocess_scl sclCore selSCL
    rw [if_pos hmem]

/-- Witness for C2 at the concrete §8.6 stack. -/
theorem C2_none_radius_raises_witness :
    preprocess_scl testStack none none (some 1) none = Except.error PyErr.typeError ∧
    preprocess_scl testStack none (some 1) none none = Except.error PyErr.typeError :=
  ⟨(C2_none_radius_raises testStack none (some 1) none (by decide)).1,
   (C2_none_radius_raises testStack none none none (by decide)).2 1⟩

/-- C8: the claim conditions on `erode_r = None` and `dilate_r = None`, but that
call raises `TypeError` at the erosion gate (line 140) on every well-formed
stack, returning no bands at all.  The intended equality does hold for the
degenerate identity morphology the truthiness bug forces for radius 0:
`invalid_after = invalid_before` whenever both radii are 0. -/
theorem C8_no_morphology_raises (s : Stack4) (mv : Option (List ℕ)) (mir : Option ℚ)
    (h : wfStack s = true) :
    preprocess_scl s mv none none mir = Except.error PyErr.typeError ∧
    ∀ codes : List (Grid ℕ),
      (sclCorePure codes 0 0 mir).invalid_after =
        (sclCorePure codes 0 0 mir).invalid_before := by
  have hmem : "SCL" ∈ s.bands := (wf_parts s h).1
  refine ⟨?_, fun codes => core_after_eq_before_disk0 codes mir⟩
  unfold preprocess_scl sclCore selSCL
  rw [if_pos hmem]

/-- Witness for C8 at the concrete §8.6 stack. -/
theorem C8_no_morphology_raises_witness :
    preprocess_scl testStack none none none none = Except.error PyErr.typeError ∧
    (sclCorePure (sclCodes testStack) 0 0 none).invalid_after =
      (sclCorePure (sclCodes testStack) 0 0 none).invalid_before :=
  ⟨(C8_no_morphology_raises testStack none none (by decide)).1,
   (C8_no_morphology_raises testStack none none (by decide)).2 (sclCodes testStack)⟩

/-- C4: the aux assembly (lines 168-174) concatenates seven 2-d `(y, x)` planes
along the existing axis 0, producing a 2-d `(7·ny, nx)` array — here `(14, 2)`
for the 2×2 test stack — and the 4-dims DataArray constructor (line 177) then
raises `ValueError`, so `preprocess_scl` never returns a `(1, 7, y, x)` aux
array (nor anything else). -/
theorem C4_aux_assembly_raises :
    preprocess_scl testStack none (some 1) (some 1) none = Except.error PyErr.valueError ∧
    (auxConcat (sclCorePure (sclCodes testStack) 1 1 none)).length = 7 * 2 ∧
    (∀ r ∈ auxConcat (sclCorePure (sclCodes testStack) 1 1 none), r.length = 2) ∧
    ndim2 (auxConcat (sclCorePure (sclCodes testStack) 1 1 none)) ≠ auxDims.length := by
  exact ⟨rfl, by decide, by decide, by decide⟩

/-- C1 counterexample: on the §8.6 stack with identity (radius-0) morphology and
`max_invalid_ratio = 1/2`, pixel `(0, 0)` has `invalid_after = 2/3 > 1/2`, yet the
computed validity mask at that pixel is `True` (valid) at timestep 0 — where the
raw code 9 is in the mask-value set — and at timestep 2: the override forces
True, not the False the claim states. -/
theorem C1_counterexample :
    fdx (sclCorePure (sclCodes testStack) 0 0 (some (1 / 2))).invalid_after 0 0 =
      divF 2 3 ∧
    divF 2 3 = Flt.val (2 / 3) ∧
    ((1 : ℚ) / 2 < 2 / 3) ∧
    sclCore testStack none (some 0) (some 0) (some (1 / 2)) =
      Except.ok (sclCorePure (sclCodes testStack) 0 0 (some (1 / 2))) ∧
    ndx ((sclCodes testStack).getD 0 []) 0 0 = 9 ∧
    bdx4 (maskOut testStack (sclCorePure (sclCodes testStack) 0 0 (some (1 / 2)))) 0 0 0 0 =
      true ∧
    bdx4 (maskOut testStack (sclCorePure (sclCodes testStack) 0 0 (some (1 / 2)))) 2 0 0 0 =
      true := by
  have hgt : fgt (divF 2 3) (1 / 2) = true := by
    show decide ((1 : ℚ) / 2 < ((2 : ℕ) : ℚ) / ((3 : ℕ) : ℚ)) = true
    simp only [decide_eq_true_eq]
    norm_num
  refine ⟨rfl, by norm_num [divF], by norm_num,
    sclCore_ok testStack none 0 0 (some (1 / 2)) (by decide), by decide, ?_, ?_⟩
  · show (false || fgt (divF 2 3) (1 / 2)) = true
    rw [hgt, Bool.or_true]
  · show (true || fgt (divF 2 3) (1 / 2)) = true
    rw [Bool.true_or]

/-- C1 (amended): when `max_invalid_ratio` is set, every pixel location whose
post-morphology `invalid_after` exceeds the threshold is forced `True` (valid) —
not False — at every timestep of the computed validity mask, matching the
docstring "Will set mask values to True, when they have an
invalid_ratio > max_invalid_ratio" (lines 154-156 OR the exceedance map into the
already-inverted mask). -/
theorem C1_amended_override_forces_valid (s : Stack4) (mv : Option (List ℕ))
    (re rd : ℕ) (thr : ℚ) (t i j : ℕ) (hw : wfStack s = true)
    (ht : t < s.times.length) (hi : i < s.y.length) (hj : j < s.x.length)
    (hover : fgt (fdx (sclCorePure (sclCodes s) re rd (some thr)).invalid_after i j) thr
      = true) :
    sclCore s mv (some re) (some rd) (some thr) =
      Except.ok (sclCorePure (sclCodes s) re rd (some thr)) ∧
    bdx4 (maskOut s (sclCorePure (sclCodes s) re rd (some thr))) t 0 i j = true := by
  obtain ⟨hclen, _, hsh⟩ := wf_codes s hw
  have hmem : "SCL" ∈ s.bands := (wf_parts s hw).1
  refine ⟨sclCore_ok s mv re rd (some thr) hmem, ?_⟩
  have htc : t < (sclCodes s).length := by rw [hclen]; exact ht
  have htv : t < (sclCorePure (sclCodes s) re rd (some thr)).maskValid.length := by
    rw [core_maskValid_length]; exact htc
  rw [bdx4_maskOut s _ i j htv, core_maskValid_some]
  have hshM : ShapeS s.y.length s.x.length
      ((sclCorePure (sclCodes s) re rd (some thr)).maskMorph.map (mapGrid (fun b => !b))) :=
    shapeS_mapGrid _ (core_maskMorph_shape (sclCodes s) re rd (some thr) hsh)
  have htM : t < ((sclCorePure (sclCodes s) re rd (some thr)).maskMorph.map
      (mapGrid (fun b => !b))).length := by
    rw [List.length_map, core_maskMorph]
    simpa using htc
  have hgM := hshM _ (getD_mem_of_lt _ htM [])
  have hiM : i < (((sclCorePure (sclCodes s) re rd (some thr)).maskMorph.map
      (mapGrid (fun b => !b))).getD t []).length := by
    rw [hgM.1]; exact hi
  have hjM : j < ((((sclCorePure (sclCodes s) re rd (some thr)).maskMorph.map
      (mapGrid (fun b => !b))).getD t []).getD i []).length := by
    rw [shape2_rowLen hgM hi]; exact hj
  rw [bdx_applyOverride thr _ _ htM hiM hjM, hover, Bool.or_true]

/-- Witness for the amended C1 at the concrete §8.6 stack, timestep 1. -/
theorem C1_amended_witness :
    sclCore testStack none (some 0) (some 0) (some (1 / 2)) =
      Except.ok (sclCorePure (sclCodes testStack) 0 0 (some (1 / 2))) ∧
    bdx4 (maskOut testStack (sclCorePure (sclCodes testStack) 0 0 (some (1 / 2)))) 1 0 0 0 =
      true :=
  C1_amended_override_forces_valid testStack none 0 0 (1 / 2) 1 0 0 (by decide) (by decide)
    (by decide) (by decide)
    (by show decide ((1 : ℚ) / 2 < ((2 : ℕ) : ℚ) / ((3 : ℕ) : ℚ)) = true
        simp only [decide_eq_true_eq]
        norm_num)

/-- C5: the validity mask the code constructs (lines 152-161) is boolean-valued
with shape `(time, 1, y, x)`, a single band named `'SCL'`, the input's time
coordinates in the same order (and the input's y/x coordinates), and with no
`max_invalid_ratio` override it is the elementwise logical NOT of the
post-morphology invalid mask.  Radii must be integers — `None` raises, see C2 —
and the subsequent aux assembly raises before the function can return this mask,
see C4. -/
theorem C5_mask_shape_polarity (s : Stack4) (mv : Option (List ℕ)) (re rd : ℕ)
    (hw : wfStack s = true) :
    sclCore s mv (some re) (some rd) none =
      Except.ok (sclCorePure (sclCodes s) re rd none) ∧
    (maskOut s (sclCorePure (sclCodes s) re rd none)).times = s.times ∧
    (maskOut s (sclCorePure (sclCodes s) re rd none)).band = ["SCL"] ∧
    (maskOut s (sclCorePure (sclCodes s) re rd none)).y = s.y ∧
    (maskOut s (sclCorePure (sclCodes s) re rd none)).x = s.x ∧
    (maskOut s (sclCorePure (sclCodes s) re rd none)).data.length = s.times.length ∧
    (∀ tb ∈ (maskOut s (sclCorePure (sclCodes s) re rd none)).data, tb.length = 1 ∧
      ∀ g ∈ tb, g.length = s.y.length ∧ ∀ r ∈ g, r.length = s.x.length) ∧
    (maskOut s (sclCorePure (sclCodes s) re rd none)).data =
      (sclCorePure (sclCodes s) re rd none).maskMorph.map
        (fun g => [mapGrid (fun b => !b) g]) := by
  obtain ⟨hclen, _, hsh⟩ := wf_codes s hw
  have hmem : "SCL" ∈ s.bands := (wf_parts s hw).1
  refine ⟨sclCore_ok s mv re rd none hmem, rfl, rfl, rfl, rfl, ?_, ?_, ?_⟩
  · show ((sclCorePure (sclCodes s) re rd none).maskValid.map (fun g => [g])).length = _
    rw [List.length_map, core_maskValid_length, hclen]
  · intro tb htb
    obtain ⟨g, hg, rfl⟩ := List.mem_map.mp htb
    refine ⟨rfl, fun g' hg' => ?_⟩
    rw [List.mem_singleton.mp hg']
    exact core_maskValid_shape (sclCodes s) re rd none hsh g hg
  · show (sclCorePure (sclCodes s) re rd none).maskValid.map (fun g => [g]) = _
    rw [core_maskValid_none, List.map_map]
    rfl

/-- Witness for C5 at the concrete §8.6 stack with radii 1. -/
theorem C5_witness :
    (maskOut testStack (sclCorePure (sclCodes testStack) 1 1 none)).band = ["SCL"] ∧
    (maskOut testStack (sclCorePure (sclCodes testStack) 1 1 none)).times =
      testStack.times :=
  ⟨(C5_mask_shape_polarity testStack none 1 1 (by decide)).2.2.1,
   (C5_mask_shape_polarity testStack none 1 1 (by decide)).2.1⟩

theorem countP_obs_zero (codes : List (Grid ℕ)) {ny nx i j : ℕ} (hsh : ShapeS ny nx codes)
    (hi : i < ny) (hj : j < nx) (hz : ∀ c ∈ codes, ndx c i j = 0) :
    (codes.map (mapGrid (fun c => c != 0))).countP (fun g => bdx g i j) = 0 := by
  rw [countP_stack_map codes _ hsh hi hj, List.countP_eq_zero]
  intro c hc
  simp [hz c hc]

/-- C6: per-pixel aux statistics: `l2a_obs` counts the timesteps with code ≠ 0;
`invalid_before` is the count of timesteps whose code is both in the mask-value
set `{1,3,8,9,10,11}` and observed, divided by the observation count; the four
cover ratios (snow = 11, water = 6, vegetation = 4, not_vegetated = 5) are
computed analogously; and at a pixel whose codes are 0 at every timestep the
observation count is 0 and all six ratio bands are NaN — the unguarded division
produces NaN rather than raising (the stage stays total, returning `ok`). -/
theorem C6_aux_band_values (s : Stack4) (mv : Option (List ℕ)) (re rd : ℕ)
    (mir : Option ℚ) (i j : ℕ) (hw : wfStack s = true)
    (hi : i < s.y.length) (hj : j < s.x.length) :
    sclCore s mv (some re) (some rd) mir =
      Except.ok (sclCorePure (sclCodes s) re rd mir) ∧
    ndx (sclCorePure (sclCodes s) re rd mir).obs i j =
      (sclCodes s).countP (fun c => ndx c i j != 0) ∧
    fdx (sclCorePure (sclCodes s) re rd mir).invalid_before i j =
      divF ((sclCodes s).countP (fun c =>
          ([1, 3, 8, 9, 10, 11] : List ℕ).contains (ndx c i j) && (ndx c i j != 0)))
        ((sclCodes s).countP (fun c => ndx c i j != 0)) ∧
    fdx (sclCorePure (sclCodes s) re rd mir).cover_snow i j =
      divF ((sclCodes s).countP (fun c => (ndx c i j == 11) && (ndx c i j != 0)))
        ((sclCodes s).countP (fun c => ndx c i j != 0)) ∧
    fdx (sclCorePure (sclCodes s) re rd mir).cover_water i j =
      divF ((sclCodes s).countP (fun c => (ndx c i j == 6) && (ndx c i j != 0)))
        ((sclCodes s).countP (fun c => ndx c i j != 0)) ∧
    fdx (sclCorePure (sclCodes s) re rd mir).cover_veg i j =
      divF ((sclCodes s).countP (fun c => (ndx c i j == 4) && (ndx c i j != 0)))
        ((sclCodes s).countP (fun c => ndx c i j != 0)) ∧
    fdx (sclCorePure (sclCodes s) re rd mir).cover_notveg i j =
      divF ((sclCodes s).countP (fun c => (ndx c i j == 5) && (ndx c i j != 0)))
        ((sclCodes s).countP (fun c => ndx c i j != 0)) ∧
    ((∀ c ∈ sclCodes s, ndx c i j = 0) →
      ndx (sclCorePure (sclCodes s) re rd mir).obs i j = 0 ∧
      fdx (sclCorePure (sclCodes s) re rd mir).invalid_before i j = Flt.nan ∧
      fdx (sclCorePure (sclCodes s) re rd mir).invalid_after i j = Flt.nan ∧
      fdx (sclCorePure (sclCodes s) re rd mir).cover_snow i j = Flt.nan ∧
      fdx (sclCorePure (sclCodes s) re rd mir).cover_water i j = Flt.nan ∧
      fdx (sclCorePure (sclCodes s) re rd mir).cover_veg i j = Flt.nan ∧
      fdx (sclCorePure (sclCodes s) re rd mir).cover_notveg i j = Flt.nan) := by
  have hmem : "SCL" ∈ s.bands := (wf_parts s hw).1
  have hsh := wf_shapeS s hw
  have hi' : i < nyOf (sclCodes s) := by rw [wf_nyOf s hw]; exact hi
  have hj' : j < nxOf (sclCodes s) := by rw [wf_nxOf s hw]; exact hj
  have hobs := core_obs_val (sclCodes s) re rd mir hsh hi' hj'
  have hib : fdx (sclCorePure (sclCodes s) re rd mir).invalid_before i j =
      divF ((sclCodes s).countP (fun c =>
          ([1, 3, 8, 9, 10, 11] : List ℕ).contains (ndx c i j) && (ndx c i j != 0)))
        ((sclCodes s).countP (fun c => ndx c i j != 0)) := by
    rw [core_invalid_before_def, fdx_ratio_expr _ _ hsh hi' hj']
    rfl
  have hcs : fdx (sclCorePure (sclCodes s) re rd mir).cover_snow i j =
      divF ((sclCodes s).countP (fun c => (ndx c i j == 11) && (ndx c i j != 0)))
        ((sclCodes s).countP (fun c => ndx c i j != 0)) := by
    rw [(core_cover_def (sclCodes s) re rd mir).1, fdx_ratio_expr _ _ hsh hi' hj']
    rfl
  have hcw : fdx (sclCorePure (sclCodes s) re rd mir).cover_water i j =
      divF ((sclCodes s).countP (fun c => (ndx c i j == 6) && (ndx c i j != 0)))
        ((sclCodes s).countP (fun c => ndx c i j != 0)) := by
    rw [(core_cover_def (sclCodes s) re rd mir).2.1, fdx_ratio_expr _ _ hsh hi' hj']
    rfl
  have hcv : fdx (sclCorePure (sclCodes s) re rd mir).cover_veg i j =
      divF ((sclCodes s).countP (fun c => (ndx c i j == 4) && (ndx c i j != 0)))
        ((sclCodes s).countP (fun c => ndx c i j != 0)) := by
    rw [(core_cover_def (sclCodes s) re rd mir).2.2.1, fdx_ratio_expr _ _ hsh hi' hj']
    rfl
  have hcn : fdx (sclCorePure (sclCodes s) re rd mir).cover_notveg i j =
      divF ((sclCodes s).countP (fun c => (ndx c i j == 5) && (ndx c i j != 0)))
        ((sclCodes s).countP (fun c => ndx c i j != 0)) := by
    rw [(core_cover_def (sclCodes s) re rd mir).2.2.2, fdx_ratio_expr _ _ hsh hi' hj']
    rfl
  refine ⟨sclCore_ok s mv re rd mir hmem, hobs, hib, hcs, hcw, hcv, hcn, fun hz => ?_⟩
  have hden : (sclCodes s).countP (fun c => ndx c i j != 0) = 0 := by
    rw [List.countP_eq_zero]
    intro c hc
    simp [hz c hc]
  have hobs0 : ndx (sclCorePure (sclCodes s) re rd mir).obs i j = 0 := by
    rw [hobs, hden]
  have hnum1 : (sclCodes s).countP (fun c =>
      ([1, 3, 8, 9, 10, 11] : List ℕ).contains (ndx c i j) && (ndx c i j != 0)) = 0 := by
    rw [List.countP_eq_zero]; intro c hc; simp [hz c hc]
  have hnum2 : ∀ v : ℕ, (sclCodes s).countP (fun c =>
      (ndx c i j == v) && (ndx c i j != 0)) = 0 := by
    intro v
    rw [List.countP_eq_zero]; intro c hc; simp [hz c hc]
  have hia : fdx (sclCorePure (sclCodes s) re rd mir).invalid_after i j = Flt.nan := by
    rw [core_invalid_after_def, fdx_div_sums _ _ hi' hj',
      countP_andStack_obs_zero _ _ hsh hi' hj' hz, countP_obs_zero _ hsh hi' hj' hz]
    rfl
  exact ⟨hobs0, by rw [hib, hnum1, hden]; rfl, hia, by rw [hcs, hnum2 11, hden]; rfl,
    by rw [hcw, hnum2 6, hden]; rfl, by rw [hcv, hnum2 4, hden]; rfl,
    by rw [hcn, hnum2 5, hden]; rfl⟩

/-- Witness for C6 at the concrete §8.6 stack, pixel `(0, 0)`. -/
theorem C6_witness :
    ndx (sclCorePure (sclCodes testStack) 0 0 none).obs 0 0 =
      (sclCodes testStack).countP (fun c => ndx c 0 0 != 0) :=
  (C6_aux_band_values testStack none 0 0 none 0 0 (by decide) (by decide) (by decide)).2.1

/-- C10: code 0 (`no_data`) is not in the fixed mask-value set, so the
binarization never marks a `no_data` pixel-time invalid; with the degenerate
radius-0 (identity) morphology and no `max_invalid_ratio` threshold, every
`no_data` pixel-time is `True` (valid) in the computed output mask —
indistinguishable there from a valid observation. -/
theorem C10_nodata_valid (s : Stack4) (mv : Option (List ℕ)) (t i j : ℕ)
    (hw : wfStack s = true) (ht : t < s.times.length) (hi : i < s.y.length)
    (hj : j < s.x.length) (h0 : ndx ((sclCodes s).getD t []) i j = 0) :
    sclCore s mv (some 0) (some 0) none =
      Except.ok (sclCorePure (sclCodes s) 0 0 none) ∧
    ([1, 3, 8, 9, 10, 11] : List ℕ).contains 0 = false ∧
    bdx4 (maskOut s (sclCorePure (sclCodes s) 0 0 none)) t 0 i j = true := by
  obtain ⟨hclen, _, hsh⟩ := wf_codes s hw
  have hmem : "SCL" ∈ s.bands := (wf_parts s hw).1
  have htc : t < (sclCodes s).length := by rw [hclen]; exact ht
  have htv : t < (sclCorePure (sclCodes s) 0 0 none).maskValid.length := by
    rw [core_maskValid_length]; exact htc
  refine ⟨sclCore_ok s mv 0 0 none hmem, rfl, ?_⟩
  rw [bdx4_maskOut s _ i j htv, core_maskValid_none, core_maskMorph,
    map_erode2d_disk0, map_dilate2d_disk0, List.map_map,
    getD_map_of_lt _ htc [] []]
  have hct := hsh _ (getD_mem_of_lt _ htc [])
  have hrow : j < (((sclCodes s).getD t []).getD i []).length := by
    rw [shape2_rowLen hct hi]; exact hj
  have hrow2 : j < ((mapGrid (fun c => SCL_MASK_VALUES.contains c)
      ((sclCodes s).getD t [])).getD i []).length := by
    rw [shape2_rowLen (shape2_mapGrid _ hct) hi]; exact hj
  have h0' : gdx ((sclCodes s).getD t []) i j 0 = 0 := h0
  show gdx (mapGrid (fun b => !b) (mapGrid (fun c => SCL_MASK_VALUES.contains c)
      ((sclCodes s).getD t []))) i j false = true
  rw [gdx_mapGrid _ _ hrow2 false false, gdx_mapGrid _ _ hrow false 0, h0']
  rfl

/-- Witness for C10 at the stack with a `no_data` entry, `t = 1`, pixel `(1, 1)`. -/
theorem C10_witness :
    bdx4 (maskOut testStack0 (sclCorePure (sclCodes testStack0) 0 0 none)) 1 0 1 1 = true :=
  (C10_nodata_valid testStack0 none 1 1 1 (by decide) (by decide) (by decide) (by decide)
    (by decide)).2.2

/-- C9: `SCLMask.clip` crops the mask member and the aux member with the
identical bounds (delegating both to the same spatial-crop primitive), returns a
new container built from the two cropped arrays (the originals are unchanged —
the model is pure and the source constructs a new dataclass instance), and
preserves the pairing invariant: if mask and aux carry the same y/x coordinates,
the cropped members again carry identical y/x coordinate sets. -/
theorem C9_clip_coregistered (m : SCLMask) (b : Bounds)
    (hy : m.mask.y = m.aux.y) (hx : m.mask.x = m.aux.x) :
    (SCLMask.clip m b).mask = rioClip m.mask b ∧
    (SCLMask.clip m b).aux = rioClip m.aux b ∧
    (SCLMask.clip m b).mask.y = (SCLMask.clip m b).aux.y ∧
    (SCLMask.clip m b).mask.x = (SCLMask.clip m b).aux.x := by
  refine ⟨rfl, rfl, ?_, ?_⟩
  · show m.mask.y.filter _ = m.aux.y.filter _
    rw [hy]
  · show m.mask.x.filter _ = m.aux.x.filter _
    rw [hx]

/-- Witness for C9 on a concrete coregistered container. -/
theorem C9_witness :
    (SCLMask.clip testMask (30, 15, 40, 25)).mask.y =
      (SCLMask.clip testMask (30, 15, 40, 25)).aux.y ∧
    (SCLMask.clip testMask (30, 15, 40, 25)).mask.x =
      (SCLMask.clip testMask (30, 15, 40, 25)).aux.x :=
  ⟨(C9_clip_coregistered testMask (30, 15, 40, 25) (by decide) (by decide)).2.2.1,
   (C9_clip_coregistered testMask (30, 15, 40, 25) (by decide) (by decide)).2.2.2⟩
